import Mathlib

/-!
Verification of the retrieval-and-selection pipeline of the rag-repo-assistant
repository.  Strings from the TypeScript source are modelled as `List Char`
(`Str` below); JS string primitives (`includes`, `startsWith`, `trim`,
`toLowerCase`, `slice`) are modelled by the corresponding list operations.
Numbers that the pipeline treats as integer counts (`maxChunks`, `maxPerFile`,
`minChars`, `topK`, `k`) are modelled as `Nat`; embedding coordinates are
modelled as real numbers.
-/

/-- Strings as lists of characters. -/
abbrev Str := List Char

/-- JS `haystack.includes(needle)`: `hasSub needle haystack` is true iff
`needle` occurs as a contiguous substring of `haystack`. -/
def hasSub (needle : Str) : Str → Bool
  | [] => needle.isEmpty
  | c :: rest => needle.isPrefixOf (c :: rest) || hasSub needle rest

/-- JS `s.toLowerCase()` restricted to the per-character lowering that the
router's ASCII keyword matching relies on. -/
def toLowerStr (s : Str) : Str := s.map Char.toLower

/-- JS `s.trim()`: drop whitespace from both ends. -/
def trimChars (s : Str) : Str :=
  ((s.dropWhile Char.isWhitespace).reverse.dropWhile Char.isWhitespace).reverse

/-- Chunk metadata as read by the selection logic (`sourcePath` is the
per-source caps key, `sectionPath` the finer dedup key; the remaining fields
`collection`, `sourceType`, `contentHash` are never consulted by the verified
operations and are omitted). -/
structure ChunkMetadata where
  sourcePath : Str
  sectionPath : Option Str
deriving DecidableEq

/-- A chunk: id, text, metadata. -/
structure Chunk where
  id : Str
  text : Str
  metadata : ChunkMetadata
deriving DecidableEq

/-- A scored retrieval result as consumed by selection.  The similarity score
is carried along by the source but never read by any selection decision, so it
is omitted from the model. -/
structure RetrievedChunk where
  chunk : Chunk
deriving DecidableEq

/-- Selection options of `selectForContext` (eval.ts) and of
`assembleContextFromCandidates` (ask.ts); `maxCharsPerChunk` only affects the
rendered context string, not which items are selected, and is kept separate in
`truncateText`. -/
structure SelectOpts where
  maxChunks : Nat
  maxPerFile : Nat
  minChars : Nat
  dropStatus : Bool
  priorityPrefixes : List Str
deriving DecidableEq

/-- `isPrioritySource` (eval.ts line 175, ask.ts line 238):
`priorityPrefixes.some((p) => sourcePath.startsWith(p))`. -/
def isPrioritySource (sourcePath : Str) (priorityPrefixes : List Str) : Bool :=
  priorityPrefixes.any (fun p => p.isPrefixOf sourcePath)

/-- `isLowSignalChunk` (eval.ts lines 179-197, ask.ts lines 242-264): priority
sources are never low-signal; otherwise a chunk is low-signal when its trimmed
text is shorter than `minChars`, or (when `dropStatus`) its lower-cased section
path contains the substring "status". -/
def isLowSignalChunk (r : RetrievedChunk) (o : SelectOpts) : Bool :=
  if isPrioritySource r.chunk.metadata.sourcePath o.priorityPrefixes then false
  else if (trimChars r.chunk.text).length < o.minChars then true
  else if o.dropStatus && hasSub ("status".data)
      (toLowerStr (r.chunk.metadata.sectionPath.getD [])) then true
  else false

/-- The section-level dedup key: `` `${file}::${sectionKey}` `` where
`sectionKey = md.sectionPath ?? ""`. -/
def dedupKey (md : ChunkMetadata) : Str :=
  md.sourcePath ++ ':' :: ':' :: md.sectionPath.getD []

/-- Number of already-selected items from a given source file.  In the source
this is the `perFileCount` map: it is bumped exactly when an item of that file
is pushed onto `selected` (in `assembleContextFromCandidates` only for
non-priority files, which are the only files for which it is ever read, and
priority of a file is a function of its path alone), so its value at `file`
always equals this count. -/
def countFile (selected : List RetrievedChunk) (file : Str) : Nat :=
  selected.countP (fun s => decide (s.chunk.metadata.sourcePath = file))

/-- Loop body of `selectForContext` (eval.ts lines 213-231): walk candidates,
skip low-signal items, consume the dedup key (even when the per-file cap then
rejects the item), apply the per-file cap to every source, stop as soon as
`maxChunks` items are accepted. -/
def selGo (o : SelectOpts) : List RetrievedChunk → List Str → List RetrievedChunk →
    List RetrievedChunk
  | [], _, selected => selected
  | r :: rest, seen, selected =>
    if isLowSignalChunk r o then selGo o rest seen selected
    else if dedupKey r.chunk.metadata ∈ seen then selGo o rest seen selected
    else if o.maxPerFile ≤ countFile selected r.chunk.metadata.sourcePath then
      selGo o rest (dedupKey r.chunk.metadata :: seen) selected
    else if o.maxChunks ≤ (selected ++ [r]).length then selected ++ [r]
    else selGo o rest (dedupKey r.chunk.metadata :: seen) (selected ++ [r])

/-- `selectForContext` (eval.ts lines 199-234). -/
def selectForContext (candidates : List RetrievedChunk) (o : SelectOpts) :
    List RetrievedChunk :=
  selGo o candidates [] []

/-- Loop body of `assembleContextFromCandidates` (ask.ts lines 281-304): like
`selGo`, but a priority source bypasses the per-file cap entirely. -/
def asmGo (o : SelectOpts) : List RetrievedChunk → List Str → List RetrievedChunk →
    List RetrievedChunk
  | [], _, selected => selected
  | r :: rest, seen, selected =>
    if isLowSignalChunk r o then asmGo o rest seen selected
    else if dedupKey r.chunk.metadata ∈ seen then asmGo o rest seen selected
    else if isPrioritySource r.chunk.metadata.sourcePath o.priorityPrefixes then
      (if o.maxChunks ≤ (selected ++ [r]).length then selected ++ [r]
       else asmGo o rest (dedupKey r.chunk.metadata :: seen) (selected ++ [r]))
    else if o.maxPerFile ≤ countFile selected r.chunk.metadata.sourcePath then
      asmGo o rest (dedupKey r.chunk.metadata :: seen) selected
    else if o.maxChunks ≤ (selected ++ [r]).length then selected ++ [r]
    else asmGo o rest (dedupKey r.chunk.metadata :: seen) (selected ++ [r])

/-- Selection part of `assembleContextFromCandidates` (ask.ts lines 266-315);
the rendered context string built from the same `selected` list is modelled
separately by `truncateText`. -/
def assembleContextFromCandidates (candidates : List RetrievedChunk)
    (o : SelectOpts) : List RetrievedChunk :=
  asmGo o candidates [] []

/-- The relaxation used by both fallback ladders (eval.ts lines 304-311,
ask.ts lines 462-469): `minChars` drops to `min(minChars, 60)` and status
dropping is disabled. -/
def relaxOpts (o : SelectOpts) : SelectOpts :=
  { o with minChars := min o.minChars 60, dropStatus := false }

/-- `selectedFinal` fallback ladder of eval.ts (lines 295-313): primary
selection; if empty, relaxed selection; if still empty, the first `maxChunks`
raw candidates. -/
def selectedFinalEval (pool : List RetrievedChunk) (o : SelectOpts) :
    List RetrievedChunk :=
  if (selectForContext pool o).length = 0 then
    if (selectForContext pool (relaxOpts o)).length = 0 then pool.take o.maxChunks
    else selectForContext pool (relaxOpts o)
  else selectForContext pool o

/-- `assembled` fallback ladder of ask.ts (lines 452-482), selection part. -/
def assembledFinal (pool : List RetrievedChunk) (o : SelectOpts) :
    List RetrievedChunk :=
  if (assembleContextFromCandidates pool o).length = 0 then
    if (assembleContextFromCandidates pool (relaxOpts o)).length = 0 then
      pool.take o.maxChunks
    else assembleContextFromCandidates pool (relaxOpts o)
  else assembleContextFromCandidates pool o

/-- Distinctness of section-level dedup keys, the relation the selection
output is deduplicated by. -/
abbrev keyNe (a b : RetrievedChunk) : Prop :=
  dedupKey a.chunk.metadata ≠ dedupKey b.chunk.metadata

/-- Concrete candidate: first section of a routed ADR file. -/
def adrItem1 : RetrievedChunk :=
  ⟨⟨"i1".data, "short".data, ⟨"apps/docs/app/adr/0001.md".data, some ("Context".data)⟩⟩⟩

/-- Concrete candidate: second section of the same routed ADR file. -/
def adrItem2 : RetrievedChunk :=
  ⟨⟨"i2".data, "short".data, ⟨"apps/docs/app/adr/0001.md".data, some ("Decision".data)⟩⟩⟩

/-- Concrete candidate: third section of the same routed ADR file. -/
def adrItem3 : RetrievedChunk :=
  ⟨⟨"i3".data, "short".data, ⟨"apps/docs/app/adr/0001.md".data, some ("Consequences".data)⟩⟩⟩

/-- Options with the source defaults (`maxChunks 8`, `maxPerFile 2`,
`minChars 120`, `dropStatus` on) and the migrations priority prefixes. -/
def adrOpts : SelectOpts :=
  { maxChunks := 8, maxPerFile := 2, minChars := 120, dropStatus := true,
    priorityPrefixes := [("apps/docs/app/adr/".data), ("README.md".data)] }

/-- Two raw candidates sharing one `(sourcePath, sectionPath)` key, both with
empty text. -/
def dupItem1 : RetrievedChunk :=
  ⟨⟨"d1".data, [], ⟨"a.md".data, some ("Intro".data)⟩⟩⟩

/-- Second candidate with the same dedup key as `dupItem1`. -/
def dupItem2 : RetrievedChunk :=
  ⟨⟨"d2".data, [], ⟨"a.md".data, some ("Intro".data)⟩⟩⟩

/-- Source-default options with no priority prefixes. -/
def plainOpts : SelectOpts :=
  { maxChunks := 8, maxPerFile := 2, minChars := 120, dropStatus := true,
    priorityPrefixes := [] }

/-- Candidate whose text has 80 characters: below the default `minChars` of
120 but above the relaxed threshold of 60. -/
def midItem : RetrievedChunk :=
  ⟨⟨"m1".data, List.replicate 80 'x', ⟨"a.md".data, some ("A".data)⟩⟩⟩

/-- Candidate whose text has 10 characters: below even the relaxed
threshold. -/
def tinyItem : RetrievedChunk :=
  ⟨⟨"m2".data, List.replicate 10 'y', ⟨"b.md".data, some ("B".data)⟩⟩⟩

/-- Options with `maxChunks 2` and otherwise the source defaults, no priority
prefixes. -/
def smallOpts : SelectOpts :=
  { maxChunks := 2, maxPerFile := 2, minChars := 120, dropStatus := true,
    priorityPrefixes := [] }

/-- JS whitespace as removed by `trimEnd`, on UTF-16 code units. -/
def isJsWs (c : Nat) : Bool :=
  c = 9 || c = 10 || c = 11 || c = 12 || c = 13 || c = 32 || c = 160 ||
  c = 0x2028 || c = 0x2029 || c = 0xFEFF

/-- JS `s.trimEnd()` on UTF-16 code units. -/
def trimEndU (s : List Nat) : List Nat :=
  (s.reverse.dropWhile isJsWs).reverse

/-- The continuation marker `"\n…"` appended by `truncateText` (a newline and
U+2026). -/
def truncMarker : List Nat := [10, 0x2026]

/-- `truncateText` (ask.ts lines 36-39 and part_004 lines 28-31), on UTF-16
code units exactly as JS `length` / `slice` operate:
`text.length <= maxChars ? text : text.slice(0, maxChars).trimEnd() + "\n…"`. -/
def truncateText (text : List Nat) (maxChars : Nat) : List Nat :=
  if text.length ≤ maxChars then text
  else trimEndU (text.take maxChars) ++ truncMarker

/-- High-surrogate test on a UTF-16 code unit. -/
def isHighSur (c : Nat) : Bool := decide (0xD800 ≤ c ∧ c ≤ 0xDBFF)

/-- Low-surrogate test on a UTF-16 code unit. -/
def isLowSur (c : Nat) : Bool := decide (0xDC00 ≤ c ∧ c ≤ 0xDFFF)

/-- Well-formedness of a UTF-16 code-unit sequence: every high surrogate is
immediately followed by a low surrogate and no low surrogate is unpaired. -/
def wf16 : List Nat → Bool
  | [] => true
  | [c] => !isHighSur c && !isLowSur c
  | c :: d :: rest =>
    if isHighSur c then isLowSur d && wf16 rest
    else !isLowSur c && wf16 (d :: rest)

/-- A well-formed text "a😀" as UTF-16 code units: U+1F600 is the surrogate
pair D83D DE00. -/
def emojiText : List Nat := [97, 0xD83D, 0xDE00]

/-- Coarse query intent, as in the source's `RoutePlan` union type. -/
inductive Intent
  | tests
  | db
  | migrations
  | openapi
  | auth
  | general
deriving DecidableEq

/-- `RoutePlan` (eval.ts lines 79-82, ask.ts lines 103-106). -/
structure RoutePlan where
  prefixes : List Str
  intent : Intent
deriving DecidableEq

/-- `hasAny` helper of `inferRoutePlan`: `words.some((w) => q.includes(w))`. -/
def hasAnyKw (q : Str) (ws : List Str) : Bool :=
  ws.any (fun w => hasSub w q)

/-- Tests keywords of eval.ts `inferRoutePlan` (line 88). -/
def testsKwEval : List Str :=
  [("integration test".data), ("integration tests".data), ("vitest".data),
   ("test:db".data), ("pnpm test".data)]

/-- Db keywords of eval.ts `inferRoutePlan` (line 89). -/
def dbKwEval : List Str :=
  [("database".data), ("postgres".data), ("postgresql".data), ("pg pool".data),
   ("connection".data), ("access the database".data)]

/-- Auth keywords of eval.ts `inferRoutePlan` (line 90). -/
def authKwEval : List Str :=
  [("authentication".data), ("auth".data), ("x-user-id".data), ("jwt".data),
   ("oauth".data), ("cognito".data)]

/-- OpenAPI keywords of eval.ts `inferRoutePlan` (line 91). -/
def openApiKwEval : List Str :=
  [("openapi".data), ("swagger".data), ("typebox".data)]

/-- Migrations keywords of eval.ts `inferRoutePlan` (lines 92-98). -/
def migrationsKwEval : List Str :=
  [("migration".data), ("migrations".data), ("database migrations".data),
   ("how are database migrations handled".data), ("sql-first".data)]

/-- `inferRoutePlan` of eval.ts (lines 84-120): lower-case the query, then
test the intents in the fixed order tests, migrations, openapi, auth, db,
falling back to general. -/
def inferRoutePlanEval (query : Str) : RoutePlan :=
  let q := toLowerStr query
  if hasAnyKw q testsKwEval then ⟨[("apps/api/README.md".data)], .tests⟩
  else if hasAnyKw q migrationsKwEval then
    ⟨[("apps/docs/app/adr/".data), ("apps/docs/README.md".data), ("README.md".data)],
      .migrations⟩
  else if hasAnyKw q openApiKwEval then
    ⟨[("apps/api/README.md".data),
      ("apps/docs/app/adr/0002-fastify-typebox-openapi.md".data)], .openapi⟩
  else if hasAnyKw q authKwEval then
    ⟨[("apps/api/README.md".data), ("README.md".data)], .auth⟩
  else if hasAnyKw q dbKwEval then
    ⟨[("README.md".data), ("apps/api/README.md".data)], .db⟩
  else ⟨[], .general⟩

/-- Tests keywords of ask.ts `inferRoutePlan` (lines 112-124). -/
def testsKwAsk : List Str :=
  [("integration test".data), ("integration tests".data), ("vitest".data),
   ("test:db".data), ("pnpm test".data), ("run the integration tests".data),
   ("run integration tests".data), ("run tests".data),
   ("how do i run the tests".data), ("how do i run integration tests".data),
   ("how do i run the integration test".data)]

/-- Db keywords of ask.ts `inferRoutePlan` (lines 126-136). -/
def dbKwAsk : List Str :=
  [("database".data), ("postgres".data), ("postgresql".data), ("pg pool".data),
   ("pool".data), ("connection".data), ("connect".data),
   ("access the database".data), ("db access".data)]

/-- Auth keywords of ask.ts `inferRoutePlan` (line 138). -/
def authKwAsk : List Str :=
  [("authentication".data), ("auth".data), ("x-user-id".data), ("jwt".data),
   ("oauth".data), ("cognito".data)]

/-- OpenAPI keywords of ask.ts `inferRoutePlan` (line 140). -/
def openApiKwAsk : List Str :=
  [("openapi".data), ("swagger".data), ("typebox".data)]

/-- Migrations keywords of ask.ts `inferRoutePlan` (lines 142-156). -/
def migrationsKwAsk : List Str :=
  [("migration".data), ("migrations".data), ("migrate".data), ("migrating".data),
   ("database migrations".data), ("migrations handled".data),
   ("how are database migrations handled".data), ("schema changes".data),
   ("schema change".data), ("ddl".data), ("sql-first".data), ("sql files".data),
   ("apply migrations".data)]

/-- `inferRoutePlan` of ask.ts (lines 108-179): same precedence as the eval
variant, with wider keyword sets and without `apps/docs/README.md` among the
migrations prefixes. -/
def inferRoutePlanAsk (query : Str) : RoutePlan :=
  let q := toLowerStr query
  if hasAnyKw q testsKwAsk then ⟨[("apps/api/README.md".data)], .tests⟩
  else if hasAnyKw q migrationsKwAsk then
    ⟨[("apps/docs/app/adr/".data), ("README.md".data)], .migrations⟩
  else if hasAnyKw q openApiKwAsk then
    ⟨[("apps/api/README.md".data),
      ("apps/docs/app/adr/0002-fastify-typebox-openapi.md".data)], .openapi⟩
  else if hasAnyKw q authKwAsk then
    ⟨[("apps/api/README.md".data), ("README.md".data)], .auth⟩
  else if hasAnyKw q dbKwAsk then
    ⟨[("README.md".data), ("apps/api/README.md".data)], .db⟩
  else ⟨[], .general⟩

/-- A query containing a tests keyword ("vitest"), a migrations keyword
("migration") and a db keyword ("database"). -/
def mixedQuery : Str := "vitest migration database".data

/-- `toPathOnly` (eval.ts lines 46-49): the part of a source label before the
first `#`. -/
def toPathOnly (s : Str) : Str := s.takeWhile (fun c => c != '#')

/-- `sourceMatchesNeedle` (eval.ts lines 51-60): path equality, path-prefix
match, or raw substring containment. -/
def sourceMatchesNeedle (source needle : Str) : Bool :=
  toPathOnly source == toPathOnly needle ||
  (toPathOnly needle).isPrefixOf (toPathOnly source) ||
  hasSub needle source

/-- `hitAtK` (eval.ts lines 62-65): does some needle match some of the first
`k` selected sources. -/
def hitAtK (selectedSources mustContain : List Str) (k : Nat) : Bool :=
  mustContain.any (fun needle =>
    (selectedSources.take k).any (fun s => sourceMatchesNeedle s needle))

/-- The k values for which the evaluator aggregates hit rates (eval.ts line
251): `[1, 3, 5, 8].filter((x) => x <= maxChunks)`. -/
def ksOf (maxChunks : Nat) : List Nat :=
  [1, 3, 5, 8].filter (fun x => decide (x ≤ maxChunks))

/-- The per-case `ok3` value of eval.ts line 323: hit@3 is computed for every
case's log line, independently of `maxChunks`. -/
def caseOk3 (sources mustContain : List Str) : Bool :=
  hitAtK sources mustContain 3

/-- An evaluation case (eval.ts lines 6-11). -/
structure EvalCase where
  id : Option Str
  q : Str
  collection : Str
  mustContain : List Str
deriving DecidableEq

/-- Accumulated evaluator state: `total`, the `hits` table, and the skipped
cases reported by the missing-embedding branch (eval.ts lines 272-281). -/
structure EvalAcc where
  total : Nat
  hits : Nat → Nat
  skipped : List (Option Str)

/-- The `for (const k of ks) if (hitAtK(...)) hits[k]++` update of eval.ts
lines 317-321. -/
def bumpHits (sources mustContain : List Str) : List Nat → (Nat → Nat) → Nat → Nat
  | [], hits => hits
  | k :: rest, hits =>
    bumpHits sources mustContain rest
      (if hitAtK sources mustContain k then Function.update hits k (hits k + 1) else hits)

/-- The evaluator's main loop (eval.ts lines 275-337).  `embedF` models the
external `embed([c.q])` call (an external collaborator): `.error` is a thrown
rejection, `.ok vecs` a resolved batch whose head is destructured into `qVec`.
`pipe` abstracts the per-case retrieve-and-select pipeline, which maps the
query vector to the list of normalized selected sources.  A thrown embedding
rejection propagates out of the loop (there is no try/catch around the body),
so the whole run aborts with the error; a resolved-but-headless batch takes
the `if (!qVec) continue` branch, which counts and reports the case as
skipped. -/
def runEval (embedF : EvalCase → Except Str (List (List Int)))
    (pipe : EvalCase → List Int → List Str) (ks : List Nat) :
    List EvalCase → EvalAcc → Except Str EvalAcc
  | [], acc => .ok acc
  | c :: rest, acc =>
    match embedF c with
    | .error e => .error e
    | .ok vecs =>
      match vecs.head? with
      | none =>
        runEval embedF pipe ks rest
          ⟨acc.total + 1, acc.hits, acc.skipped ++ [c.id]⟩
      | some v =>
        runEval embedF pipe ks rest
          ⟨acc.total + 1, bumpHits (pipe c v) c.mustContain ks acc.hits, acc.skipped⟩

/-- A first eval case. -/
def evalCase1 : EvalCase :=
  ⟨some ("case-1".data), ("how are database migrations handled?".data),
    ("docvault".data), [("apps/docs/app/adr/".data)]⟩

/-- A second eval case. -/
def evalCase2 : EvalCase :=
  ⟨some ("case-2".data), ("how does authentication work?".data),
    ("docvault".data), [("apps/api/README.md".data)]⟩

/-- The zero-initialised accumulator (eval.ts lines 272-273). -/
def accInit : EvalAcc := ⟨0, fun _ => 0, []⟩

/-- Selected sources of a run where only the third item matches. -/
def thirdHitSources : List Str := [("a.md".data), ("b.md".data), ("c.md".data)]

/-- Must-contain set matching only the third source. -/
def thirdHitMust : List Str := [("c.md".data)]

/-- An embedding stub whose every call resolves with an empty batch. -/
def embedOkEmpty : EvalCase → Except Str (List (List Int)) :=
  fun _ => .ok []

/-- An embedding stub whose every call throws, as `embed` does when the
Ollama request fails. -/
def embedBoom : EvalCase → Except Str (List (List Int)) :=
  fun _ => .error ("Ollama embeddings request failed: 500".data)

/-- A pipeline stub selecting nothing. -/
def pipeNone : EvalCase → List Int → List Str :=
  fun _ _ => []

/-- Sum of coordinate-wise products over the common length, with `a[i] ?? 0`
modelled by `getD`: the `dot` accumulator of `cosine` (ask.ts lines 44-60) and
`cosineSimilarity` (sqliteStore.ts). -/
noncomputable def cosineDot (a b : List ℝ) : ℝ :=
  ∑ i ∈ Finset.range (min a.length b.length), a.getD i 0 * b.getD i 0

/-- The `na` accumulator: sum of `av * av` over the common length. -/
noncomputable def cosineNa (a b : List ℝ) : ℝ :=
  ∑ i ∈ Finset.range (min a.length b.length), a.getD i 0 * a.getD i 0

/-- The `nb` accumulator: sum of `bv * bv` over the common length. -/
noncomputable def cosineNb (a b : List ℝ) : ℝ :=
  ∑ i ∈ Finset.range (min a.length b.length), b.getD i 0 * b.getD i 0

/-- `cosine` (ask.ts lines 44-60) / `cosineSimilarity` (sqliteStore.ts): 0
when either accumulated norm is 0, otherwise `dot / (sqrt na * sqrt nb)`. -/
noncomputable def cosine (a b : List ℝ) : ℝ :=
  if cosineNa a b = 0 ∨ cosineNb a b = 0 then 0
  else cosineDot a b / (Real.sqrt (cosineNa a b) * Real.sqrt (cosineNb a b))

/-- Squared Euclidean norm of a full vector (the "zero norm" condition of the
spec). -/
noncomputable def norm2 (v : List ℝ) : ℝ :=
  ∑ i ∈ Finset.range v.length, v.getD i 0 * v.getD i 0

theorem countFile_append_single (sel : List RetrievedChunk) (r : RetrievedChunk)
    (p : Str) :
    countFile (sel ++ [r]) p =
      countFile sel p + if r.chunk.metadata.sourcePath = p then 1 else 0 := by
  simp [countFile, List.countP_append, List.countP_cons]

theorem countFile_push_le {sel : List RetrievedChunk} {r : RetrievedChunk}
    {p : Str} {m : Nat} (h : countFile sel p ≤ m)
    (h3 : countFile sel r.chunk.metadata.sourcePath < m) :
    countFile (sel ++ [r]) p ≤ m := by
  rcases eq_or_ne r.chunk.metadata.sourcePath p with hp | hp
  · rw [countFile_append_single, if_pos hp]
    rw [hp] at h3
    omega
  · rw [countFile_append_single, if_neg hp]
    simpa using h

theorem selGo_countFile_le (o : SelectOpts) (p : Str) :
    ∀ (cs : List RetrievedChunk) (seen : List Str) (sel : List RetrievedChunk),
      countFile sel p ≤ o.maxPerFile →
      countFile (selGo o cs seen sel) p ≤ o.maxPerFile := by
  intro cs
  induction cs with
  | nil => intro seen sel h; simpa [selGo] using h
  | cons r rest ih =>
    intro seen sel h
    simp only [selGo]
    split_ifs with h1 h2 h3 h4
    · exact ih _ _ h
    · exact ih _ _ h
    · exact ih _ _ h
    · exact countFile_push_le h (by omega)
    · exact ih _ _ (countFile_push_le h (by omega))

theorem selGo_length_le (o : SelectOpts) :
    ∀ (cs : List RetrievedChunk) (seen : List Str) (sel : List RetrievedChunk),
      sel.length < o.maxChunks →
      (selGo o cs seen sel).length ≤ o.maxChunks := by
  intro cs
  induction cs with
  | nil => intro seen sel h; simpa [selGo] using h.le
  | cons r rest ih =>
    intro seen sel h
    simp only [selGo]
    split_ifs with h1 h2 h3 h4
    · exact ih _ _ h
    · exact ih _ _ h
    · exact ih _ _ h
    · simpa using h
    · refine ih _ _ ?_
      simp only [List.length_append, List.length_cons, List.length_nil] at h4 ⊢
      omega

theorem selGo_pairwise (o : SelectOpts) :
    ∀ (cs : List RetrievedChunk) (seen : List Str) (sel : List RetrievedChunk),
      (∀ x ∈ sel, dedupKey x.chunk.metadata ∈ seen) →
      sel.Pairwise keyNe →
      (selGo o cs seen sel).Pairwise keyNe := by
  intro cs
  induction cs with
  | nil => intro seen sel _ hp; simpa [selGo] using hp
  | cons r rest ih =>
    intro seen sel hmem hp
    have hpush : ¬ dedupKey r.chunk.metadata ∈ seen →
        (sel ++ [r]).Pairwise keyNe := by
      intro h2
      refine List.pairwise_append.2 ⟨hp, List.pairwise_singleton _ _, ?_⟩
      intro a ha b hb
      simp only [List.mem_singleton] at hb
      subst hb
      intro hkey
      exact h2 (hkey ▸ hmem a ha)
    have hmem' : ∀ x ∈ sel ++ [r],
        dedupKey x.chunk.metadata ∈ dedupKey r.chunk.metadata :: seen := by
      intro x hx
      rcases List.mem_append.1 hx with hx | hx
      · exact List.mem_cons_of_mem _ (hmem x hx)
      · simp only [List.mem_singleton] at hx
        subst hx
        exact List.mem_cons_self _ _
    simp only [selGo]
    split_ifs with h1 h2 h3 h4
    · exact ih _ _ hmem hp
    · exact ih _ _ hmem hp
    · refine ih _ _ ?_ hp
      intro x hx
      exact List.mem_cons_of_mem _ (hmem x hx)
    · exact hpush h2
    · exact ih _ _ hmem' (hpush h2)

theorem selGo_all_low (o : SelectOpts) :
    ∀ (cs : List RetrievedChunk) (seen : List Str) (sel : List RetrievedChunk),
      (∀ r ∈ cs, isLowSignalChunk r o = true) →
      selGo o cs seen sel = sel := by
  intro cs
  induction cs with
  | nil => intro seen sel _; simp [selGo]
  | cons r rest ih =>
    intro seen sel hlow
    have h1 : isLowSignalChunk r o = true := hlow r (List.mem_cons_self _ _)
    simp only [selGo, h1, if_true]
    exact ih _ _ (fun x hx => hlow x (List.mem_cons_of_mem _ hx))

theorem asmGo_countFile_le (o : SelectOpts) (p : Str)
    (hp : isPrioritySource p o.priorityPrefixes = false) :
    ∀ (cs : List RetrievedChunk) (seen : List Str) (sel : List RetrievedChunk),
      countFile sel p ≤ o.maxPerFile →
      countFile (asmGo o cs seen sel) p ≤ o.maxPerFile := by
  intro cs
  induction cs with
  | nil => intro seen sel h; simpa [asmGo] using h
  | cons r rest ih =>
    intro seen sel h
    have hne : isPrioritySource r.chunk.metadata.sourcePath o.priorityPrefixes = true →
        r.chunk.metadata.sourcePath ≠ p := by
      intro hpr heq
      rw [heq, hp] at hpr
      exact Bool.false_ne_true hpr
    have hkeep : isPrioritySource r.chunk.metadata.sourcePath o.priorityPrefixes = true →
        countFile (sel ++ [r]) p ≤ o.maxPerFile := by
      intro hpr
      rw [countFile_append_single, if_neg (hne hpr)]
      simpa using h
    simp only [asmGo]
    split_ifs with h1 h2 h3 h4 h5 h6
    · exact ih _ _ h
    · exact ih _ _ h
    · exact hkeep h3
    · exact ih _ _ (hkeep h3)
    · exact ih _ _ h
    · exact countFile_push_le h (by omega)
    · exact ih _ _ (countFile_push_le h (by omega))

theorem asmGo_length_le (o : SelectOpts) :
    ∀ (cs : List RetrievedChunk) (seen : List Str) (sel : List RetrievedChunk),
      sel.length < o.maxChunks →
      (asmGo o cs seen sel).length ≤ o.maxChunks := by
  intro cs
  induction cs with
  | nil => intro seen sel h; simpa [asmGo] using h.le
  | cons r rest ih =>
    intro seen sel h
    simp only [asmGo]
    split_ifs with h1 h2 h3 h4 h5 h6
    · exact ih _ _ h
    · exact ih _ _ h
    · simpa using h
    · refine ih _ _ ?_
      simp only [List.length_append, List.length_cons, List.length_nil] at h4 ⊢
      omega
    · exact ih _ _ h
    · simpa using h
    · refine ih _ _ ?_
      simp only [List.length_append, List.length_cons, List.length_nil] at h6 ⊢
      omega

theorem asmGo_pairwise (o : SelectOpts) :
    ∀ (cs : List RetrievedChunk) (seen : List Str) (sel : List RetrievedChunk),
      (∀ x ∈ sel, dedupKey x.chunk.metadata ∈ seen) →
      sel.Pairwise keyNe →
      (asmGo o cs seen sel).Pairwise keyNe := by
  intro cs
  induction cs with
  | nil => intro seen sel _ hp; simpa [asmGo] using hp
  | cons r rest ih =>
    intro seen sel hmem hp
    have hpush : ¬ dedupKey r.chunk.metadata ∈ seen →
        (sel ++ [r]).Pairwise keyNe := by
      intro h2
      refine List.pairwise_append.2 ⟨hp, List.pairwise_singleton _ _, ?_⟩
      intro a ha b hb
      simp only [List.mem_singleton] at hb
      subst hb
      intro hkey
      exact h2 (hkey ▸ hmem a ha)
    have hmem' : ∀ x ∈ sel ++ [r],
        dedupKey x.chunk.metadata ∈ dedupKey r.chunk.metadata :: seen := by
      intro x hx
      rcases List.mem_append.1 hx with hx | hx
      · exact List.mem_cons_of_mem _ (hmem x hx)
      · simp only [List.mem_singleton] at hx
        subst hx
        exact List.mem_cons_self _ _
    simp only [asmGo]
    split_ifs with h1 h2 h3 h4 h5 h6
    · exact ih _ _ hmem hp
    · exact ih _ _ hmem hp
    · exact hpush h2
    · exact ih _ _ hmem' (hpush h2)
    · refine ih _ _ ?_ hp
      intro x hx
      exact List.mem_cons_of_mem _ (hmem x hx)
    · exact hpush h2
    · exact ih _ _ hmem' (hpush h2)

theorem asmGo_all_low (o : SelectOpts) :
    ∀ (cs : List RetrievedChunk) (seen : List Str) (sel : List RetrievedChunk),
      (∀ r ∈ cs, isLowSignalChunk r o = true) →
      asmGo o cs seen sel = sel := by
  intro cs
  induction cs with
  | nil => intro seen sel _; simp [asmGo]
  | cons r rest ih =>
    intro seen sel hlow
    have h1 : isLowSignalChunk r o = true := hlow r (List.mem_cons_self _ _)
    simp only [asmGo, h1, if_true]
    exact ih _ _ (fun x hx => hlow x (List.mem_cons_of_mem _ hx))

theorem asmGo_all_priority (o : SelectOpts) :
    ∀ (cs : List RetrievedChunk) (seen : List Str) (sel : List RetrievedChunk),
      (∀ r ∈ cs, isPrioritySource r.chunk.metadata.sourcePath o.priorityPrefixes = true) →
      cs.Pairwise keyNe →
      (∀ r ∈ cs, ¬ dedupKey r.chunk.metadata ∈ seen) →
      sel.length + cs.length ≤ o.maxChunks →
      asmGo o cs seen sel = sel ++ cs := by
  intro cs
  induction cs with
  | nil => intro seen sel _ _ _ _; simp [asmGo]
  | cons r rest ih =>
    intro seen sel hpri hpw hseen hlen
    have hpr : isPrioritySource r.chunk.metadata.sourcePath o.priorityPrefixes = true :=
      hpri r (List.mem_cons_self _ _)
    have hlow : isLowSignalChunk r o = false := by
      simp [isLowSignalChunk, hpr]
    have hnotin : ¬ dedupKey r.chunk.metadata ∈ seen :=
      hseen r (List.mem_cons_self _ _)
    simp only [asmGo, hlow, Bool.false_eq_true, if_false, if_neg hnotin, hpr, if_true]
    by_cases hstop : o.maxChunks ≤ (sel ++ [r]).length
    · have hrest : rest = [] := by
        simp only [List.length_append, List.length_cons, List.length_nil] at hstop hlen
        have : rest.length = 0 := by omega
        exact List.length_eq_zero.1 this
      subst hrest
      rw [if_pos hstop]
    · rw [if_neg hstop]
      rw [ih _ _ (fun x hx => hpri x (List.mem_cons_of_mem _ hx))
        (List.Pairwise.of_cons hpw) ?_ ?_]
      · simp
      · intro x hx
        simp only [List.mem_cons]
        rintro (hk | hk)
        · exact List.rel_of_pairwise_cons hpw hx hk.symm
        · exact hseen x (List.mem_cons_of_mem _ hx) hk
      · simp only [List.length_append, List.length_cons, List.length_nil] at hlen ⊢
        omega

/-- Claim C1 as stated is false: `selectForContext` (eval.ts lines 199-234)
applies the per-source cap to priority sources too.  Three candidates from a
single source matching the migrations priority prefixes, with distinct
sections, `maxPerSource = 2` and `maxChunks = 8`, yield only 2 selected items
instead of all 3. -/
theorem c1_counterexample :
    selectForContext [adrItem1, adrItem2, adrItem3] adrOpts = [adrItem1, adrItem2] ∧
    (selectForContext [adrItem1, adrItem2, adrItem3] adrOpts).length ≠ 3 := by
  constructor
  · decide
  · decide

/-- Claim C1 amended: the per-source cap is waived for priority sources only
in `assembleContextFromCandidates` (ask.ts): N candidates from one
priority-prefix source with pairwise-distinct dedup keys and N ≤ `maxChunks`
are all selected, and non-priority sources contribute at most `maxPerSource`
items each; in `selectForContext` (eval.ts) the cap instead applies to every
source, priority ones included. -/
theorem c1_per_source_cap (cands : List RetrievedChunk) (o : SelectOpts) :
    (∀ p, countFile (selectForContext cands o) p ≤ o.maxPerFile) ∧
    (∀ p, isPrioritySource p o.priorityPrefixes = false →
      countFile (assembleContextFromCandidates cands o) p ≤ o.maxPerFile) ∧
    ((∀ r ∈ cands,
        isPrioritySource r.chunk.metadata.sourcePath o.priorityPrefixes = true) →
      cands.Pairwise keyNe →
      cands.length ≤ o.maxChunks →
      assembleContextFromCandidates cands o = cands) := by
  refine ⟨?_, ?_, ?_⟩
  · intro p
    exact selGo_countFile_le o p cands [] [] (by simp [countFile])
  · intro p hp
    exact asmGo_countFile_le o p hp cands [] [] (by simp [countFile])
  · intro hpri hpw hlen
    have h0 := asmGo_all_priority o cands [] [] hpri hpw (by simp) (by simpa using hlen)
    simpa [assembleContextFromCandidates] using h0

/-- Witness for `c1_per_source_cap` at the concrete three-ADR-sections
input. -/
theorem c1_witness :
    assembleContextFromCandidates [adrItem1, adrItem2, adrItem3] adrOpts =
      [adrItem1, adrItem2, adrItem3] ∧
    countFile (selectForContext [adrItem1, adrItem2, adrItem3] adrOpts)
      ("other.md".data) ≤ adrOpts.maxPerFile :=
  ⟨(c1_per_source_cap [adrItem1, adrItem2, adrItem3] adrOpts).2.2
      (by decide) (by decide) (by decide),
   (c1_per_source_cap [adrItem1, adrItem2, adrItem3] adrOpts).1 ("other.md".data)⟩

/-- Claim C2 as stated is false: when both filtering passes are empty the raw
fallback (`candidatePool.slice(0, maxChunks)`, eval.ts line 312, ask.ts line
472) does not deduplicate, so a pool of two items sharing a
`(sourcePath, sectionPath)` key yields an output that repeats that key. -/
theorem c2_counterexample :
    selectedFinalEval [dupItem1, dupItem2] plainOpts = [dupItem1, dupItem2] ∧
    dedupKey dupItem1.chunk.metadata = dedupKey dupItem2.chunk.metadata ∧
    dupItem1 ≠ dupItem2 := by
  refine ⟨by decide, by decide, by decide⟩

/-- Claim C2 amended: for options with `maxChunks ≥ 1` the output of either
fallback ladder has length at most `maxChunks`; and whenever the output comes
from one of the two filtering passes — i.e. the raw fallback is not reached —
it never contains two items with equal `(sourcePath, sectionPath)` keys.  (The
raw fallback keeps the length bound but may repeat keys, and with
`maxChunks = 0` a pass can return one item.) -/
theorem c2_bounded_dedup (pool : List RetrievedChunk) (o : SelectOpts)
    (h : 1 ≤ o.maxChunks) :
    (selectedFinalEval pool o).length ≤ o.maxChunks ∧
    (assembledFinal pool o).length ≤ o.maxChunks ∧
    (¬ (selectForContext pool o = [] ∧ selectForContext pool (relaxOpts o) = []) →
      (selectedFinalEval pool o).Pairwise keyNe) ∧
    (¬ (assembleContextFromCandidates pool o = [] ∧
        assembleContextFromCandidates pool (relaxOpts o) = []) →
      (assembledFinal pool o).Pairwise keyNe) := by
  have hsel : ∀ o' : SelectOpts, o'.maxChunks = o.maxChunks →
      (selectForContext pool o').length ≤ o.maxChunks := by
    intro o' ho
    have h0 := selGo_length_le o' pool [] [] (by simp; omega)
    simpa [selectForContext, ho] using h0
  have hasm : ∀ o' : SelectOpts, o'.maxChunks = o.maxChunks →
      (assembleContextFromCandidates pool o').length ≤ o.maxChunks := by
    intro o' ho
    have h0 := asmGo_length_le o' pool [] [] (by simp; omega)
    simpa [assembleContextFromCandidates, ho] using h0
  have hselpw : ∀ o' : SelectOpts, (selectForContext pool o').Pairwise keyNe :=
    fun o' => selGo_pairwise o' pool [] [] (by simp) (by simp)
  have hasmpw : ∀ o' : SelectOpts,
      (assembleContextFromCandidates pool o').Pairwise keyNe :=
    fun o' => asmGo_pairwise o' pool [] [] (by simp) (by simp)
  refine ⟨?_, ?_, ?_, ?_⟩
  · unfold selectedFinalEval
    split_ifs with h1 h2
    · simp
    · exact hsel _ rfl
    · exact hsel _ rfl
  · unfold assembledFinal
    split_ifs with h1 h2
    · simp
    · exact hasm _ rfl
    · exact hasm _ rfl
  · intro hne
    unfold selectedFinalEval
    split_ifs with h1 h2
    · exact absurd ⟨List.length_eq_zero.1 h1, List.length_eq_zero.1 h2⟩ hne
    · exact hselpw _
    · exact hselpw _
  · intro hne
    unfold assembledFinal
    split_ifs with h1 h2
    · exact absurd ⟨List.length_eq_zero.1 h1, List.length_eq_zero.1 h2⟩ hne
    · exact hasmpw _
    · exact hasmpw _

/-- Witness for `c2_bounded_dedup` at the duplicate-key pool and source
defaults. -/
theorem c2_witness :
    (selectedFinalEval [dupItem1, dupItem2] plainOpts).length ≤ plainOpts.maxChunks :=
  (c2_bounded_dedup [dupItem1, dupItem2] plainOpts (by decide)).1

/-- Claim C3 as stated is false: with a pool of two sub-`minChars` items from
distinct sources where only the first survives the relaxed threshold of 60,
the ladder's second pass returns a single item, which is fewer than
`min(maxChunks, pool size) = 2`. -/
theorem c3_counterexample :
    selectedFinalEval [midItem, tinyItem] smallOpts = [midItem] ∧
    (selectedFinalEval [midItem, tinyItem] smallOpts).length <
      min smallOpts.maxChunks ([midItem, tinyItem] : List RetrievedChunk).length := by
  refine ⟨by decide, by decide⟩

/-- Claim C3 amended: for a non-empty candidate pool in which every item's
trimmed text is shorter than `minChars` and no source is priority-exempt, and
options with `maxChunks ≥ 1`, the fallback ladder still returns a non-empty
selection (at least one item, though possibly fewer than
`min(maxChunks, pool size)`), in both the eval and the ask pipeline. -/
theorem c3_fallback_nonempty (pool : List RetrievedChunk) (o : SelectOpts)
    (hne : pool ≠ []) (hmax : 1 ≤ o.maxChunks)
    (hshort : ∀ r ∈ pool, (trimChars r.chunk.text).length < o.minChars)
    (hnopri : ∀ r ∈ pool,
      isPrioritySource r.chunk.metadata.sourcePath o.priorityPrefixes = false) :
    selectedFinalEval pool o ≠ [] ∧ assembledFinal pool o ≠ [] := by
  have hlow : ∀ r ∈ pool, isLowSignalChunk r o = true := by
    intro r hr
    simp [isLowSignalChunk, hnopri r hr, hshort r hr]
  have htake : pool.take o.maxChunks ≠ [] := by
    intro hcontra
    rcases List.take_eq_nil_iff.1 hcontra with hk | hp
    · omega
    · exact hne hp
  have hsel1 : selectForContext pool o = [] := selGo_all_low o pool [] [] hlow
  have hasm1 : assembleContextFromCandidates pool o = [] := asmGo_all_low o pool [] [] hlow
  constructor
  · unfold selectedFinalEval
    split_ifs with h1 h2
    · exact htake
    · intro hcontra
      exact h2 (by simp [hcontra])
    · exact absurd (by simp [hsel1]) h1
  · unfold assembledFinal
    split_ifs with h1 h2
    · exact htake
    · intro hcontra
      exact h2 (by simp [hcontra])
    · exact absurd (by simp [hasm1]) h1

/-- Witness for `c3_fallback_nonempty` at the all-too-short duplicate-key
pool: every text is empty, no priority prefixes, and the ladder still returns
items. -/
theorem c3_witness :
    selectedFinalEval [dupItem1, dupItem2] plainOpts ≠ [] :=
  (c3_fallback_nonempty [dupItem1, dupItem2] plainOpts (by decide) (by decide)
    (by decide) (by decide)).1

/-- Claim C5 as stated is false: `truncateText` cuts with JS `slice` on UTF-16
code units and can split a surrogate pair.  On the well-formed text "a😀"
with `maxChars = 2` the kept prefix ends in the dangling high surrogate
D83D. -/
theorem c5_counterexample :
    wf16 emojiText = true ∧
    truncateText emojiText 2 = [97, 0xD83D, 10, 0x2026] ∧
    wf16 (trimEndU (emojiText.take 2)) = false := by
  refine ⟨by decide, by decide, by decide⟩

theorem trimEndU_pre (s : List Nat) : trimEndU s <+: s := by
  have h := List.dropWhile_suffix (l := s.reverse) isJsWs
  have h2 := List.reverse_prefix.2 h
  simpa [trimEndU] using h2

/-- Claim C5 amended: `truncateText` returns the text unchanged when it fits
in `maxChars` code units; otherwise it returns a prefix of the text of at most
`maxChars` UTF-16 code units (with trailing whitespace removed) followed by
the continuation marker `"\n…"`.  The cut is a code-unit cut and may fall
inside a surrogate pair. -/
theorem c5_truncate_clean (text : List Nat) (maxChars : Nat) :
    (text.length ≤ maxChars → truncateText text maxChars = text) ∧
    (maxChars < text.length →
      truncateText text maxChars = trimEndU (text.take maxChars) ++ truncMarker ∧
      trimEndU (text.take maxChars) <+: text ∧
      (trimEndU (text.take maxChars)).length ≤ maxChars) := by
  constructor
  · intro h
    simp [truncateText, h]
  · intro h
    refine ⟨by simp [truncateText]; omega, ?_, ?_⟩
    · exact (trimEndU_pre _).trans ( List.take_prefix _ _)
    · have h1 : (trimEndU (text.take maxChars)).length ≤ (text.take maxChars).length :=
        (trimEndU_pre _).length_le
      have h2 : (text.take maxChars).length ≤ maxChars := by
        simp [List.length_take]
      omega

/-- Witness for `c5_truncate_clean`: the fits branch at a one-unit text and
the overflow branch at the emoji text with `maxChars = 2`. -/
theorem c5_witness :
    truncateText [97] 3 = [97] ∧ trimEndU (emojiText.take 2) <+: emojiText :=
  ⟨(c5_truncate_clean [97] 3).1 (by decide),
   ((c5_truncate_clean emojiText 2).2 (by decide)).2.1⟩

/-- Claim C8 confirmed: `hitAtK` is monotone non-decreasing in `k` for fixed
selected sources and must-contain set. -/
theorem c8_hitAtK_monotone (ss mc : List Str) (k k' : Nat) (hk : k ≤ k')
    (h : hitAtK ss mc k = true) : hitAtK ss mc k' = true := by
  unfold hitAtK at h ⊢
  rcases List.any_eq_true.1 h with ⟨needle, hn, hmatch⟩
  rcases List.any_eq_true.1 hmatch with ⟨s, hs, hsm⟩
  refine List.any_eq_true.2 ⟨needle, hn, List.any_eq_true.2 ⟨s, ?_, hsm⟩⟩
  have heq : ss.take k = (ss.take k').take k := by
    rw [List.take_take, min_eq_left hk]
  rw [heq] at hs
  exact List.take_subset _ _ hs

/-- Witness for `c8_hitAtK_monotone`: a hit at k = 3 propagates to k = 8. -/
theorem c8_witness : hitAtK thirdHitSources thirdHitMust 8 = true :=
  c8_hitAtK_monotone thirdHitSources thirdHitMust 3 8 (by decide) (by decide)

/-- Claim C4 is a code bug: a rejected `embed` call (the only way the
embedding service can actually fail) propagates out of the evaluator's loop
and aborts the whole batch run; neither the current case nor any later case is
scored and no totals are reported.  Only a resolved batch with no head vector
would take the counted-and-skipped branch. -/
theorem c4_embed_error_aborts (embedF : EvalCase → Except Str (List (List Int)))
    (pipe : EvalCase → List Int → List Str) (ks : List Nat) (c : EvalCase)
    (rest : List EvalCase) (acc : EvalAcc) (e : Str) (h : embedF c = .error e) :
    runEval embedF pipe ks (c :: rest) acc = .error e := by
  simp only [runEval]
  rw [h]

/-- Witness for `c4_embed_error_aborts`: a two-case batch whose first case's
embedding call throws evaluates to the bare error — the second case is never
processed. -/
theorem c4_witness :
    runEval embedBoom pipeNone (ksOf 8) [evalCase1, evalCase2] accInit =
      .error ("Ollama embeddings request failed: 500".data) :=
  c4_embed_error_aborts embedBoom pipeNone (ksOf 8) evalCase1 [evalCase2] accInit
    ("Ollama embeddings request failed: 500".data) rfl

theorem bumpHits_not_mem (sources mc : List Str) (j : Nat) :
    ∀ (ks : List Nat) (hits : Nat → Nat), ¬ j ∈ ks →
      bumpHits sources mc ks hits j = hits j := by
  intro ks
  induction ks with
  | nil => intro hits _; rfl
  | cons k rest ih =>
    intro hits hj
    have hjk : j ≠ k := by
      intro hcontra
      exact hj (hcontra ▸ List.mem_cons_self _ _)
    have hjr : ¬ j ∈ rest := by
      intro hcontra
      exact hj (List.mem_cons_of_mem _ hcontra)
    rw [bumpHits, ih _ hjr]
    split_ifs with h1
    · exact Function.update_noteq hjk _ _
    · rfl

theorem runEval_hits_not_mem (embedF : EvalCase → Except Str (List (List Int)))
    (pipe : EvalCase → List Int → List Str) (ks : List Nat) (j : Nat)
    (hj : ¬ j ∈ ks) :
    ∀ (cases : List EvalCase) (acc out : EvalAcc),
      runEval embedF pipe ks cases acc = .ok out → out.hits j = acc.hits j := by
  intro cases
  induction cases with
  | nil =>
    intro acc out h
    simp only [runEval, Except.ok.injEq] at h
    rw [← h]
  | cons c rest ih =>
    intro acc out h
    simp only [runEval] at h
    cases hembed : embedF c with
    | error e => rw [hembed] at h; simp at h
    | ok vecs =>
      rw [hembed] at h
      cases vecs with
      | nil =>
        simp only [List.head?] at h
        exact ih ⟨acc.total + 1, acc.hits, acc.skipped ++ [c.id]⟩ out h
      | cons v vs =>
        simp only [List.head?] at h
        have h2 := ih _ _ h
        rw [h2]
        exact bumpHits_not_mem _ _ _ _ _ hj

/-- Claim C9 as stated is false: the aggregated metric loop does restrict to
`ks = [1,3,5,8].filter(x => x <= maxChunks)`, but hit@3 is additionally
computed for every case's log line (eval.ts line 323) regardless of
`maxChunks`.  With `maxChunks = 2` the metrics only cover k = 1, yet the
per-case hit@3 is computed (and here differs from every reported k). -/
theorem c9_counterexample :
    ksOf 2 = [1] ∧
    caseOk3 thirdHitSources thirdHitMust = true ∧
    hitAtK thirdHitSources thirdHitMust 1 = false ∧
    ¬ (3 ≤ 2) := by
  refine ⟨by decide, by decide, by decide, by decide⟩

/-- Claim C9 amended: the aggregated metric output covers exactly the k in
{1, 3, 5, 8} with k ≤ maxChunks — a successful run never touches the hit
counter of any other k, so larger k are silently dropped from the metrics —
while the per-case log line always computes hit@3, whatever `maxChunks`
is. -/
theorem c9_metrics_ks (m k : Nat) (embedF : EvalCase → Except Str (List (List Int)))
    (pipe : EvalCase → List Int → List Str) (cases : List EvalCase)
    (acc out : EvalAcc) :
    (k ∈ ksOf m ↔ k ∈ ([1, 3, 5, 8] : List Nat) ∧ k ≤ m) ∧
    (runEval embedF pipe (ksOf m) cases acc = .ok out →
      ∀ j, ¬ j ∈ ksOf m → out.hits j = acc.hits j) ∧
    (∀ sources mustContain, caseOk3 sources mustContain = hitAtK sources mustContain 3) := by
  refine ⟨?_, ?_, fun _ _ => rfl⟩
  · simp [ksOf, List.mem_filter]
  · intro h j hj
    exact runEval_hits_not_mem embedF pipe (ksOf m) j hj cases acc out h

/-- Witness for `c9_metrics_ks` at `maxChunks = 8`, `k = 3`, an empty batch
and the untouched counter at k = 9. -/
theorem c9_witness :
    (3 ∈ ksOf 8 ↔ 3 ∈ ([1, 3, 5, 8] : List Nat) ∧ 3 ≤ 8) ∧
    accInit.hits 9 = accInit.hits 9 :=
  ⟨(c9_metrics_ks 8 3 embedOkEmpty pipeNone [] accInit accInit).1,
   (c9_metrics_ks 8 3 embedOkEmpty pipeNone [] accInit accInit).2.1 rfl 9 (by decide)⟩

/-- Claim C6 as stated is false in its universally quantified part: the query
"vitest migration database" contains a migrations keyword ("migration") and a
db keyword ("database"), yet both routers classify it as `tests`, because it
also contains the tests keyword "vitest" and tests outranks migrations. -/
theorem c6_counterexample :
    (inferRoutePlanEval mixedQuery).intent = Intent.tests ∧
    (inferRoutePlanAsk mixedQuery).intent = Intent.tests ∧
    hasAnyKw (toLowerStr mixedQuery) migrationsKwEval = true ∧
    hasAnyKw (toLowerStr mixedQuery) dbKwEval = true ∧
    hasAnyKw (toLowerStr mixedQuery) migrationsKwAsk = true ∧
    hasAnyKw (toLowerStr mixedQuery) dbKwAsk = true ∧
    Intent.tests ≠ Intent.migrations := by
  refine ⟨by decide, by decide, by decide, by decide, by decide, by decide, by decide⟩

/-- Claim C6 amended: both `inferRoutePlan` variants follow the fixed
precedence tests > migrations > openapi > auth > db > general on their keyword
sets; in particular every query containing a migrations keyword and a db
keyword — and no tests keyword — classifies as `migrations`. -/
theorem c6_precedence (query : Str) :
    ((hasAnyKw (toLowerStr query) testsKwEval = true →
        (inferRoutePlanEval query).intent = Intent.tests) ∧
     (hasAnyKw (toLowerStr query) testsKwEval = false →
        hasAnyKw (toLowerStr query) migrationsKwEval = true →
        (inferRoutePlanEval query).intent = Intent.migrations) ∧
     (hasAnyKw (toLowerStr query) testsKwEval = false →
        hasAnyKw (toLowerStr query) migrationsKwEval = false →
        hasAnyKw (toLowerStr query) openApiKwEval = true →
        (inferRoutePlanEval query).intent = Intent.openapi) ∧
     (hasAnyKw (toLowerStr query) testsKwEval = false →
        hasAnyKw (toLowerStr query) migrationsKwEval = false →
        hasAnyKw (toLowerStr query) openApiKwEval = false →
        hasAnyKw (toLowerStr query) authKwEval = true →
        (inferRoutePlanEval query).intent = Intent.auth) ∧
     (hasAnyKw (toLowerStr query) testsKwEval = false →
        hasAnyKw (toLowerStr query) migrationsKwEval = false →
        hasAnyKw (toLowerStr query) openApiKwEval = false →
        hasAnyKw (toLowerStr query) authKwEval = false →
        hasAnyKw (toLowerStr query) dbKwEval = true →
        (inferRoutePlanEval query).intent = Intent.db) ∧
     (hasAnyKw (toLowerStr query) testsKwEval = false →
        hasAnyKw (toLowerStr query) migrationsKwEval = false →
        hasAnyKw (toLowerStr query) openApiKwEval = false →
        hasAnyKw (toLowerStr query) authKwEval = false →
        hasAnyKw (toLowerStr query) dbKwEval = false →
        (inferRoutePlanEval query).intent = Intent.general) ∧
     (hasAnyKw (toLowerStr query) migrationsKwEval = true →
        hasAnyKw (toLowerStr query) dbKwEval = true →
        hasAnyKw (toLowerStr query) testsKwEval = false →
        (inferRoutePlanEval query).intent = Intent.migrations)) ∧
    ((hasAnyKw (toLowerStr query) testsKwAsk = true →
        (inferRoutePlanAsk query).intent = Intent.tests) ∧
     (hasAnyKw (toLowerStr query) testsKwAsk = false →
        hasAnyKw (toLowerStr query) migrationsKwAsk = true →
        (inferRoutePlanAsk query).intent = Intent.migrations) ∧
     (hasAnyKw (toLowerStr query) testsKwAsk = false →
        hasAnyKw (toLowerStr query) migrationsKwAsk = false →
        hasAnyKw (toLowerStr query) openApiKwAsk = true →
        (inferRoutePlanAsk query).intent = Intent.openapi) ∧
     (hasAnyKw (toLowerStr query) testsKwAsk = false →
        hasAnyKw (toLowerStr query) migrationsKwAsk = false →
        hasAnyKw (toLowerStr query) openApiKwAsk = false →
        hasAnyKw (toLowerStr query) authKwAsk = true →
        (inferRoutePlanAsk query).intent = Intent.auth) ∧
     (hasAnyKw (toLowerStr query) testsKwAsk = false →
        hasAnyKw (toLowerStr query) migrationsKwAsk = false →
        hasAnyKw (toLowerStr query) openApiKwAsk = false →
        hasAnyKw (toLowerStr query) authKwAsk = false →
        hasAnyKw (toLowerStr query) dbKwAsk = true →
        (inferRoutePlanAsk query).intent = Intent.db) ∧
     (hasAnyKw (toLowerStr query) testsKwAsk = false →
        hasAnyKw (toLowerStr query) migrationsKwAsk = false →
        hasAnyKw (toLowerStr query) openApiKwAsk = false →
        hasAnyKw (toLowerStr query) authKwAsk = false →
        hasAnyKw (toLowerStr query) dbKwAsk = false →
        (inferRoutePlanAsk query).intent = Intent.general) ∧
     (hasAnyKw (toLowerStr query) migrationsKwAsk = true →
        hasAnyKw (toLowerStr query) dbKwAsk = true →
        hasAnyKw (toLowerStr query) testsKwAsk = false →
        (inferRoutePlanAsk query).intent = Intent.migrations)) := by
  refine ⟨⟨?_, ?_, ?_, ?_, ?_, ?_, ?_⟩, ⟨?_, ?_, ?_, ?_, ?_, ?_, ?_⟩⟩
  all_goals intros
  all_goals simp [inferRoutePlanEval, inferRoutePlanAsk, *]

/-- Witness for `c6_precedence`: "database migration" contains a migrations
keyword and a db keyword and no tests keyword, and routes to `migrations` in
both variants. -/
theorem c6_witness :
    (inferRoutePlanEval ("database migration".data)).intent = Intent.migrations ∧
    (inferRoutePlanAsk ("database migration".data)).intent = Intent.migrations :=
  ⟨(c6_precedence ("database migration".data)).1.2.2.2.2.2.2
      (by decide) (by decide) (by decide),
   (c6_precedence ("database migration".data)).2.2.2.2.2.2.2
      (by decide) (by decide) (by decide)⟩

theorem cosineDot_symm (a b : List ℝ) : cosineDot a b = cosineDot b a := by
  unfold cosineDot
  rw [Nat.min_comm]
  exact Finset.sum_congr rfl (fun i _ => mul_comm _ _)

theorem cosineNa_swap (a b : List ℝ) : cosineNa b a = cosineNb a b := by
  unfold cosineNa cosineNb
  rw [Nat.min_comm]

theorem cosineNb_swap (a b : List ℝ) : cosineNb b a = cosineNa a b := by
  unfold cosineNa cosineNb
  rw [Nat.min_comm]

theorem cosineNa_nonneg (a b : List ℝ) : 0 ≤ cosineNa a b :=
  Finset.sum_nonneg (fun _ _ => mul_self_nonneg _)

theorem cosineNb_nonneg (a b : List ℝ) : 0 ≤ cosineNb a b :=
  Finset.sum_nonneg (fun _ _ => mul_self_nonneg _)

theorem cosine_cauchy_schwarz (a b : List ℝ) :
    cosineDot a b * cosineDot a b ≤ cosineNa a b * cosineNb a b := by
  have h := Finset.sum_mul_sq_le_sq_mul_sq (Finset.range (min a.length b.length))
    (fun i => a.getD i 0) (fun i => b.getD i 0)
  simpa [cosineDot, cosineNa, cosineNb, pow_two] using h

theorem cosineNa_eq_zero_of_norm2 (a b : List ℝ) (h : norm2 a = 0) :
    cosineNa a b = 0 := by
  have hz : ∀ i ∈ Finset.range a.length, a.getD i 0 * a.getD i 0 = 0 :=
    (Finset.sum_eq_zero_iff_of_nonneg (fun i _ => mul_self_nonneg _)).1 h
  refine Finset.sum_eq_zero ?_
  intro i hi
  refine hz i ?_
  simp only [Finset.mem_range] at hi ⊢
  omega

theorem cosineNb_eq_zero_of_norm2 (a b : List ℝ) (h : norm2 b = 0) :
    cosineNb a b = 0 := by
  have hz : ∀ i ∈ Finset.range b.length, b.getD i 0 * b.getD i 0 = 0 :=
    (Finset.sum_eq_zero_iff_of_nonneg (fun i _ => mul_self_nonneg _)).1 h
  refine Finset.sum_eq_zero ?_
  intro i hi
  refine hz i ?_
  simp only [Finset.mem_range] at hi ⊢
  omega

/-- Claim C7 confirmed: cosine similarity as implemented is symmetric, lies in
[-1, 1], and is exactly 0 whenever either vector has zero squared norm (the
zero-denominator guard returns 0 rather than dividing by zero). -/
theorem c7_cosine_props (a b : List ℝ) :
    cosine a b = cosine b a ∧ -1 ≤ cosine a b ∧ cosine a b ≤ 1 ∧
    ((norm2 a = 0 ∨ norm2 b = 0) → cosine a b = 0) := by
  have hbound : -1 ≤ cosine a b ∧ cosine a b ≤ 1 := by
    unfold cosine
    split_ifs with h
    · constructor <;> norm_num
    · push_neg at h
      have hna : 0 < cosineNa a b := lt_of_le_of_ne (cosineNa_nonneg a b) (Ne.symm h.1)
      have hnb : 0 < cosineNb a b := lt_of_le_of_ne (cosineNb_nonneg a b) (Ne.symm h.2)
      have hsa : 0 < Real.sqrt (cosineNa a b) := Real.sqrt_pos.2 hna
      have hsb : 0 < Real.sqrt (cosineNb a b) := Real.sqrt_pos.2 hnb
      have hD : 0 < Real.sqrt (cosineNa a b) * Real.sqrt (cosineNb a b) :=
        mul_pos hsa hsb
      have habs : |cosineDot a b| ≤ Real.sqrt (cosineNa a b) * Real.sqrt (cosineNb a b) := by
        have h1 : |cosineDot a b| = Real.sqrt (cosineDot a b * cosineDot a b) :=
          (Real.sqrt_mul_self_eq_abs _).symm
        rw [h1, ← Real.sqrt_mul (cosineNa_nonneg a b)]
        exact Real.sqrt_le_sqrt (cosine_cauchy_schwarz a b)
      constructor
      · rw [le_div_iff₀ hD]
        have h2 := (abs_le.1 habs).1
        linarith
      · rw [div_le_one hD]
        exact (abs_le.1 habs).2
  refine ⟨?_, hbound.1, hbound.2, ?_⟩
  · unfold cosine
    rw [cosineNa_swap a b, cosineNb_swap a b, cosineDot_symm a b]
    by_cases h : cosineNa a b = 0 ∨ cosineNb a b = 0
    · rw [if_pos h, if_pos (Or.symm h)]
    · rw [if_neg h, if_neg (fun hc => h (Or.symm hc)), mul_comm]
  · intro h
    have hz : cosineNa a b = 0 ∨ cosineNb a b = 0 := by
      rcases h with h | h
      · exact Or.inl (cosineNa_eq_zero_of_norm2 a b h)
      · exact Or.inr (cosineNb_eq_zero_of_norm2 a b h)
    unfold cosine
    rw [if_pos hz]

/-- Witness for `c7_cosine_props`: the zero-norm branch at the concrete
vectors [0] and [1]. -/
theorem c7_witness : cosine [(0 : ℝ)] [(1 : ℝ)] = 0 :=
  (c7_cosine_props [(0 : ℝ)] [(1 : ℝ)]).2.2.2 (Or.inl (by simp [norm2]))
